import Mathlib

/-!
Verification of the ok_bot query-resolution engine.

This file gives a shallow embedding, in Lean 4, of the pure computational
core of the repository:

* `src/utils/text_utils.py` — transliteration, year extraction, year-range
  parsing (`translit_ru_to_en`, `extract_year`, `year_in_range`);
* `src/synonyms.py`        — `apply_synonyms` and the alias→canonical
  mapping built by `SynonymManager.reload_synonyms`;
* `src/utils/cache.py`     — `SearchCache.get` / `SearchCache.set`, with the
  wall clock passed explicitly;
* `src/utils/search.py`    — `CarSearchEngine.search` and its strategy
  helpers, with the pandas `DataFrame` modelled as a `List CarRecord`.

Python strings are modelled as `List Char` (Lean `String.data`).  Character
level operations (`str.lower`, the regex classes `\d`, `\w`, `[а-я]`) are
modelled on the character repertoire actually reachable in this code base:
ASCII plus the Russian Cyrillic block (`а`–`я`, `А`–`Я`, `ё`, `Ё`).
Regexes are fixed-shape in the source, and each one is embedded as an
explicit parser over `List Char`.
-/

namespace OkBot

/-- Whitespace for `str.strip` / `str.split()` (the whitespace characters
occurring in the modelled data: space, tab, newline, carriage return). -/
def isPySpace (c : Char) : Bool := c = ' ' || c = '\t' || c = '\n' || c = '\r'

/-- Python `str.strip()` on a character list. -/
def pyStrip (l : List Char) : List Char :=
  ((l.dropWhile isPySpace).reverse.dropWhile isPySpace).reverse

/-- Python `str.lower()` restricted to ASCII letters and the Russian
Cyrillic block: `A`–`Z` (65–90) and `А`–`Я` (0x410–0x42F) shift down by 32,
`Ё` (0x401) maps to `ё` (0x451); everything else is fixed. -/
def pyLower (c : Char) : Char :=
  if 65 ≤ c.toNat ∧ c.toNat ≤ 90 then Char.ofNat (c.toNat + 32)
  else if 0x410 ≤ c.toNat ∧ c.toNat ≤ 0x42F then Char.ofNat (c.toNat + 32)
  else if c.toNat = 0x401 then Char.ofNat 0x451
  else c

/-- Lowercase a whole Python string. -/
def pyLowerStr (s : String) : String := String.mk (s.data.map pyLower)

/-- Python `needle in hay` substring test on strings. -/
def pyIn (needle : List Char) : List Char → Bool
  | [] => needle.isEmpty
  | c :: cs => needle.isPrefixOf (c :: cs) || pyIn needle cs

/-- Python `str.split()` helper: accumulate the current token (reversed). -/
def splitWsAux (acc : List Char) : List Char → List (List Char)
  | [] => if acc.isEmpty then [] else [acc.reverse]
  | c :: cs =>
    if isPySpace c then
      if acc.isEmpty then splitWsAux [] cs else acc.reverse :: splitWsAux [] cs
    else splitWsAux (c :: acc) cs

/-- Python `str.split()` (split on whitespace runs, no empty tokens). -/
def splitWs (l : List Char) : List String := (splitWsAux [] l).map String.mk

/-- Python `sep.join` for `" ".join(parts)`. -/
def joinSpace : List String → String
  | [] => ""
  | [x] => x
  | x :: xs => x ++ " " ++ joinSpace xs

/-- Python `str.split(',')` (no collapsing; `""` yields one empty field). -/
def splitComma : List Char → List (List Char)
  | [] => [[]]
  | c :: cs =>
    if c = ',' then [] :: splitComma cs
    else
      match splitComma cs with
      | h :: t => (c :: h) :: t
      | [] => [[c]]

/-- Python `str.isdigit()` for ASCII digit strings: nonempty, all digits. -/
def pyIsdigit (s : String) : Bool := !s.data.isEmpty && s.data.all Char.isDigit

/-- Numeric value of a digit string (what `int()` returns on a string that
the regexes below have already constrained to `\d+`). -/
def digitsToNat (l : List Char) : Nat := l.foldl (fun a c => 10 * a + (c.toNat - 48)) 0

/-- Same value as an integer. -/
def digitsToInt (l : List Char) : Int := (digitsToNat l : Int)

/-- Python `int(s)` as a fallible operation: defined on nonempty all-digit
strings, `none` (= a raised `ValueError`) otherwise. -/
def pyIntOpt (l : List Char) : Option Int :=
  if !l.isEmpty && l.all Char.isDigit then some (digitsToInt l) else none

/-! ### `translit_ru_to_en` (src/utils/text_utils.py lines 7–24)

The translation table passed to `str.translate`, one entry per Russian
letter; characters outside the table pass through unchanged. -/

/-- Per-character transliteration table of `translit_ru_to_en`. -/
def translitChar (c : Char) : List Char :=
  if c = 'а' then ['a'] else if c = 'б' then ['b'] else if c = 'в' then ['v']
  else if c = 'г' then ['g'] else if c = 'д' then ['d'] else if c = 'е' then ['e']
  else if c = 'ё' then ['e'] else if c = 'ж' then ['z', 'h'] else if c = 'з' then ['z']
  else if c = 'и' then ['i'] else if c = 'й' then ['y'] else if c = 'к' then ['k']
  else if c = 'л' then ['l'] else if c = 'м' then ['m'] else if c = 'н' then ['n']
  else if c = 'о' then ['o'] else if c = 'п' then ['p'] else if c = 'р' then ['r']
  else if c = 'с' then ['s'] else if c = 'т' then ['t'] else if c = 'у' then ['u']
  else if c = 'ф' then ['f'] else if c = 'х' then ['h'] else if c = 'ц' then ['t', 's']
  else if c = 'ч' then ['c', 'h'] else if c = 'ш' then ['s', 'h']
  else if c = 'щ' then ['s', 'c', 'h'] else if c = 'ъ' then []
  else if c = 'ы' then ['y'] else if c = 'ь' then [] else if c = 'э' then ['e']
  else if c = 'ю' then ['y', 'u'] else if c = 'я' then ['y', 'a']
  else [c]

/-- `translit_ru_to_en(text)`: `str.translate` with the table above. -/
def translit_ru_to_en (l : List Char) : List Char := l.flatMap translitChar

/-! ### `CarSearchEngine._normalize_text` (src/utils/search.py lines 115–130) -/

/-- The `.replace('ё', 'е')` step. -/
def replaceYo (c : Char) : Char := if c = 'ё' then 'е' else c

/-- The regex class `[а-я]` (codepoints 0x430–0x44F). -/
def cyr (c : Char) : Bool := decide (0x430 ≤ c.toNat) && decide (c.toNat ≤ 0x44F)

/-- `re.search(r'[а-я]', s)` as a Boolean. -/
def hasCyr (l : List Char) : Bool := l.any cyr

/-- `_normalize_text`: strip, lowercase, map `ё`→`е`, and transliterate the
whole string when it contains a character in `[а-я]`. -/
def normChars (l : List Char) : List Char :=
  let t := ((pyStrip l).map pyLower).map replaceYo
  if hasCyr t then translit_ru_to_en t else t

/-- `_normalize_text` on Lean strings. -/
def normalize (s : String) : String := String.mk (normChars s.data)

/-! ### `extract_year` (src/utils/text_utils.py lines 26–39)

`re.search(r'\b((19|20)\d\d)\b', query)`: scan left to right for the first
position where a year token matches with word boundaries on both sides. -/

/-- The regex class `\w` on the modelled repertoire: ASCII alphanumerics,
underscore, and Russian Cyrillic letters. -/
def isWordChar (c : Char) : Bool :=
  c.isAlphanum || c = '_' || cyr c
    || (decide (0x410 ≤ c.toNat) && decide (c.toNat ≤ 0x42F)) || c = 'ё' || c = 'Ё'

/-- `\b` seen from the left: the previous character (if any) is not a word
character.  (The first matched character is a digit, hence a word char.) -/
def boundaryL : Option Char → Bool
  | none => true
  | some c => !isWordChar c

/-- `\b` seen from the right of the matched token: the rest of the string is
empty or starts with a non-word character. -/
def boundaryR : List Char → Bool
  | [] => true
  | c :: _ => !isWordChar c

/-- Try `((19|20)\d\d)\b` at the head of `l`, returning the year value. -/
def yearAt (l : List Char) : Option Int :=
  match l with
  | c1 :: c2 :: c3 :: c4 :: rest =>
    if ((c1 = '1' && c2 = '9') || (c1 = '2' && c2 = '0'))
        && c3.isDigit && c4.isDigit && boundaryR rest then
      some (digitsToInt [c1, c2, c3, c4])
    else none
  | _ => none

/-- Left-to-right scan of `re.search`, carrying the previous character for
the left word boundary. -/
def findYear : Option Char → List Char → Option Int
  | _, [] => none
  | prev, c :: cs =>
    match (if boundaryL prev then yearAt (c :: cs) else none) with
    | some y => some y
    | none => findYear (some c) cs

/-- `extract_year(query)`. -/
def extract_year (q : String) : Option Int := findYear none q.data

/-- A bounded match test: a year token matches at position `i` of `l`. -/
def yearTokenAt (l : List Char) (i : Nat) : Bool :=
  boundaryL (if i = 0 then none else l.get? (i - 1)) && (yearAt (l.drop i)).isSome

/-- Whether the string has a year-like token anywhere (bounded, decidable). -/
def hasYearTok (l : List Char) : Bool := (List.range l.length).any (yearTokenAt l)

/-! ### `year_in_range` (src/utils/text_utils.py lines 41–109)

The preprocessing `year_str.lower().replace(' ', '').replace('–', '-')`,
then a fixed cascade of `re.match` patterns (prefix matches). -/

/-- The preprocessing on line 55. -/
def preYear (l : List Char) : List Char :=
  ((l.map pyLower).filter (fun c => c ≠ ' ')).map (fun c => if c = '–' then '-' else c)

/-- The alternation `(н\.в\.|нв|now)` as a prefix test. -/
def presentMarker (l : List Char) : Bool :=
  "н.в.".data.isPrefixOf l || "нв".data.isPrefixOf l || "now".data.isPrefixOf l

/-- Consume exactly `n` characters matching `\d`, returning the captured
digits and the rest. -/
def takeDigits : Nat → List Char → Option (List Char × List Char)
  | 0, l => some ([], l)
  | _ + 1, [] => none
  | n + 1, c :: cs =>
    if c.isDigit then (takeDigits n cs).map (fun p => (c :: p.1, p.2)) else none

/-- Consume one literal character. -/
def takeLit (a : Char) : List Char → Option (List Char)
  | [] => none
  | c :: cs => if c = a then some cs else none

/-- `re.match(r'(\d{2})\.(\d{2})-(н\.в\.|нв|now)', t)`: groups 1 and 2. -/
def pat1 (l : List Char) : Option (List Char × List Char) :=
  match takeDigits 2 l with
  | none => none
  | some (g1, r1) =>
    match takeLit '.' r1 with
    | none => none
    | some r2 =>
      match takeDigits 2 r2 with
      | none => none
      | some (g2, r3) =>
        match takeLit '-' r3 with
        | none => none
        | some r4 => if presentMarker r4 then some (g1, g2) else none

/-- `re.match(r'(\d{2})\.(\d{2})-(\d{2})\.(\d{2})', t)`: groups 1–4. -/
def pat2 (l : List Char) : Option (List Char × List Char × List Char × List Char) :=
  match takeDigits 2 l with
  | none => none
  | some (g1, r1) =>
    match takeLit '.' r1 with
    | none => none
    | some r2 =>
      match takeDigits 2 r2 with
      | none => none
      | some (g2, r3) =>
        match takeLit '-' r3 with
        | none => none
        | some r4 =>
          match takeDigits 2 r4 with
          | none => none
          | some (g3, r5) =>
            match takeLit '.' r5 with
            | none => none
            | some r6 =>
              match takeDigits 2 r6 with
              | none => none
              | some (g4, _) => some (g1, g2, g3, g4)

/-- `re.match(r'(\d{4})-(н\.в\.|нв|now)', t)`: group 1. -/
def pat3 (l : List Char) : Option (List Char) :=
  match takeDigits 4 l with
  | none => none
  | some (g1, r1) =>
    match takeLit '-' r1 with
    | none => none
    | some r2 => if presentMarker r2 then some g1 else none

/-- `re.match(r'(\d{4})-(\d{4})', t)`: groups 1 and 2. -/
def pat4 (l : List Char) : Option (List Char × List Char) :=
  match takeDigits 4 l with
  | none => none
  | some (g1, r1) =>
    match takeLit '-' r1 with
    | none => none
    | some r2 =>
      match takeDigits 4 r2 with
      | none => none
      | some (g2, _) => some (g1, g2)

/-- `re.match(r'(\d{2})\.(\d{2})-?', t)` and `re.match(r'(\d{2})\.(\d{2})', t)`:
groups 1 and 2.  The optional `-?` never affects whether the prefix match
succeeds nor the captures, so both regexes denote the same matcher. -/
def pat5 (l : List Char) : Option (List Char × List Char) :=
  match takeDigits 2 l with
  | none => none
  | some (g1, r1) =>
    match takeLit '.' r1 with
    | none => none
    | some r2 =>
      match takeDigits 2 r2 with
      | none => none
      | some (g2, _) => some (g1, g2)

/-- `re.match(r'(\d{4})', t)`: group 1. -/
def pat6 (l : List Char) : Option (List Char) :=
  match takeDigits 4 l with
  | none => none
  | some (g1, _) => some g1

/-- `year_in_range` on an (already string) argument: the cascade of branches
on lines 57–109 of text_utils.py, in source order. -/
def yearInRangeStr (l : List Char) (year : Int) : Bool :=
  let t := preYear l
  match pat1 t with
  | some (_, g2) =>
    let sy := digitsToInt g2
    let sf := if sy < 100 then 2000 + sy else sy
    decide (year ≥ sf)
  | none =>
  match pat2 t with
  | some (_, g2, _, g4) =>
    let sy := digitsToInt g2
    let ey := digitsToInt g4
    let sf := if sy < 100 then 2000 + sy else sy
    let ef := if ey < 100 then 2000 + ey else ey
    decide (sf ≤ year) && decide (year ≤ ef)
  | none =>
  match pat3 t with
  | some g1 => decide (year ≥ digitsToInt g1)
  | none =>
  match pat4 t with
  | some (g1, g2) => decide (digitsToInt g1 ≤ year) && decide (year ≤ digitsToInt g2)
  | none =>
  match pat5 t with
  | some (_, g2) =>
    let sy := digitsToInt g2
    let sf := if sy < 100 then 2000 + sy else sy
    decide (year ≥ sf)
  | none =>
  if pyIn "н.в".data t || pyIn "now".data t then true
  else
  match pat6 t with
  | some g1 => decide (year = digitsToInt g1)
  | none =>
  match pat5 t with
  | some (_, g2) =>
    let y2 := digitsToInt g2
    let yf := if y2 < 100 then 2000 + y2 else y2
    decide (year = yf)
  | none => false

/-- A Python value arriving at `year_in_range`'s `isinstance(year_str, str)`
guard: either a string or some non-string value. -/
inductive PyValue where
  | pstr (s : String)
  | pint (n : Int)
  | pnone
deriving DecidableEq

/-- Whether the value is a `str`. -/
def isPyStr : PyValue → Bool
  | .pstr _ => true
  | _ => false

/-- `year_in_range(year_str, year)` including the non-string guard. -/
def year_in_range (v : PyValue) (year : Int) : Bool :=
  match v with
  | .pstr s => yearInRangeStr s.data year
  | _ => false

/-- `year_in_range` at a call site that always passes `str(s)`. -/
def year_in_rangeS (s : String) (year : Int) : Bool := yearInRangeStr s.data year

/-- Exception-aware variant of `year_in_range`: every `int(m.group(..))`
call goes through `pyIntOpt`, and `none` models a raised exception.  The
branch structure is identical to `yearInRangeStr`. -/
def yearInRangeChk (l : List Char) (year : Int) : Option Bool :=
  let t := preYear l
  match pat1 t with
  | some (_, g2) => do
    let sy ← pyIntOpt g2
    let sf := if sy < 100 then 2000 + sy else sy
    pure (decide (year ≥ sf))
  | none =>
  match pat2 t with
  | some (_, g2, _, g4) => do
    let sy ← pyIntOpt g2
    let ey ← pyIntOpt g4
    let sf := if sy < 100 then 2000 + sy else sy
    let ef := if ey < 100 then 2000 + ey else ey
    pure (decide (sf ≤ year) && decide (year ≤ ef))
  | none =>
  match pat3 t with
  | some g1 => do
    let sf ← pyIntOpt g1
    pure (decide (year ≥ sf))
  | none =>
  match pat4 t with
  | some (g1, g2) => do
    let sf ← pyIntOpt g1
    let ef ← pyIntOpt g2
    pure (decide (sf ≤ year) && decide (year ≤ ef))
  | none =>
  match pat5 t with
  | some (_, g2) => do
    let sy ← pyIntOpt g2
    let sf := if sy < 100 then 2000 + sy else sy
    pure (decide (year ≥ sf))
  | none =>
  if pyIn "н.в".data t || pyIn "now".data t then pure true
  else
  match pat6 t with
  | some g1 => do
    let v ← pyIntOpt g1
    pure (decide (year = v))
  | none =>
  match pat5 t with
  | some (_, g2) => do
    let y2 ← pyIntOpt g2
    let yf := if y2 < 100 then 2000 + y2 else y2
    pure (decide (year = yf))
  | none => pure false

/-- Whether the preprocessed string matches any of the supported range
formats (any regex of the cascade, or the `н.в`/`now` substring test). -/
def supportedFormat (t : List Char) : Bool :=
  (pat1 t).isSome || (pat2 t).isSome || (pat3 t).isSome || (pat4 t).isSome
    || (pat5 t).isSome || pyIn "н.в".data t || pyIn "now".data t || (pat6 t).isSome

/-! ### Year stripping (src/utils/search.py line 53)

`re.sub(r'\b' + str(year) + r'\b', '', query_norm)`: delete every
word-bounded occurrence of the year digits, scanning left to right over the
original string. -/

/-- One `re.sub` scan deleting word-bounded occurrences of `w` (nonempty in
the source: `str(year)` has four digits).  `prev` is the character of the
original string just before the current position.  `fuel` bounds the number
of consumed characters (each step consumes at least one, so an initial fuel
of the string length makes the fuel-exhausted branch unreachable). -/
def subWordAllF (w : List Char) : Nat → Option Char → List Char → List Char
  | 0, _, _ => []
  | _ + 1, _, [] => []
  | fuel + 1, prev, c :: cs =>
    if !w.isEmpty && boundaryL prev && w.isPrefixOf (c :: cs)
        && boundaryR ((c :: cs).drop w.length) then
      subWordAllF w fuel w.getLast? ((c :: cs).drop w.length)
    else
      c :: subWordAllF w fuel (some c) cs

/-- `re.sub(r'\b' + str(year) + r'\b', '', s)` over the whole string. -/
def subWordAll (w : List Char) (prev : Option Char) (l : List Char) : List Char :=
  subWordAllF w l.length prev l

/-! ### `apply_synonyms` (src/synonyms.py lines 75–81) and the synonym
mapping built by `reload_synonyms` (lines 33–53).

A Python `dict` is modelled as an association list with unique keys:
`alookup` is key lookup, `dinsert` is `d[k] = v` (overwrite or append). -/

/-- `dict` lookup (first match; keys are unique by construction). -/
def alookup {β : Type} (k : String) : List (String × β) → Option β
  | [] => none
  | (a, b) :: t => if a = k then some b else alookup k t

/-- `d[k] = v`: overwrite the existing binding or append a new one. -/
def dinsert {β : Type} (m : List (String × β)) (k : String) (v : β) : List (String × β) :=
  if (alookup k m).isSome then m.map (fun p => if p.1 = k then (k, v) else p)
  else m ++ [(k, v)]

/-- The synonym dictionary passed into the search engine. -/
abbrev SynTable := List (String × String)

/-- `apply_synonyms(parts, synonyms)`: whole joined phrase first, then each
word independently. -/
def apply_synonyms (parts : List String) (syn : SynTable) : List String :=
  let joined := pyLowerStr (joinSpace parts)
  if (alookup joined syn).isSome then [(alookup joined syn).getD ""]
  else parts.map (fun w => (alookup w syn).getD w)

/-- One row of the backing synonyms table (columns `base`, `synonyms`). -/
structure SynRow where
  base : String
  synonyms : String
deriving DecidableEq

/-- `str(row['base']).strip().lower()`. -/
def rowBase (r : SynRow) : String := String.mk ((pyStrip r.base.data).map pyLower)

/-- `[s.strip() for s in str(row['synonyms']).strip().lower().split(',') if s.strip()]`. -/
def rowAliases (r : SynRow) : List String :=
  ((splitComma ((pyStrip r.synonyms.data).map pyLower)).map
      (fun s => String.mk (pyStrip s))).filter (fun s => s ≠ "")

/-- Processing of one row in `reload_synonyms`: each alias maps to the base,
then the base maps to itself. -/
def buildRow (m : List (String × String)) (r : SynRow) : List (String × String) :=
  dinsert ((rowAliases r).foldl (fun acc a => dinsert acc a (rowBase r)) m)
    (rowBase r) (rowBase r)

/-- The full alias→canonical mapping `reload_synonyms` builds from the rows
of the backing source (the pure core of lines 41–47; file I/O, the mtime
check and the lock are outside the embedding). -/
def build_synonyms (rows : List SynRow) : List (String × String) :=
  rows.foldl buildRow []

/-- Tokens a row claims in the mapping: its base and all its aliases. -/
def rowTokens (r : SynRow) : List String := rowBase r :: rowAliases r

/-! ### `SearchCache` (src/utils/cache.py)

`time.time()` is passed explicitly as an integer `now`; an entry is a
`(timestamp, value)` pair keyed by the raw query string. -/

/-- The cache state: entries plus the configured expiry time (TTL). -/
structure SearchCache (α : Type) where
  entries : List (String × (Int × α))
  expiry : Int
deriving DecidableEq

/-- `SearchCache.set(query, result)` at time `now`. -/
def SearchCache.set {α : Type} (c : SearchCache α) (q : String) (r : α) (now : Int) :
    SearchCache α :=
  ⟨dinsert c.entries q (now, r), c.expiry⟩

/-- `SearchCache.get(query)` at time `now`: the returned value and the cache
state afterwards (stale entries are deleted). -/
def SearchCache.get {α : Type} (c : SearchCache α) (q : String) (now : Int) :
    Option α × SearchCache α :=
  match alookup q c.entries with
  | some (ts, r) =>
    if now - ts < c.expiry then (some r, c)
    else (none, ⟨c.entries.filter (fun p => p.1 ≠ q), c.expiry⟩)
  | none => (none, c)

/-! ### `CarSearchEngine` (src/utils/search.py)

The pandas `DataFrame` is a list of records; the derived columns
`brand_lower`/`model_lower` are fields precomputed at load time
(src/utils/database.py lines 46–47).  `search` is embedded as the pure
cache-miss computation `search_compute`; the cache interaction (lines
41–43 and 111) is the `SearchCache` model above, and the `debug_log`
strings are not modelled. -/

/-- One row of the cars table (the columns the search engine reads). -/
structure CarRecord where
  brand : String
  model : String
  years : String
  brand_lower : String
  model_lower : String
deriving DecidableEq

/-- Python truthiness of the extracted year (`if year:`). -/
def pyTruthy : Option Int → Bool
  | some v => v ≠ 0
  | none => false

/-- `re.sub(r'\[.*?\]', '', model_field)`: delete every bracketed group up
to the first closing `]`; an unmatched `[` stays.  (`.` does not match a
newline; model fields contain none.)  `fuel` bounds the consumed characters
as in `subWordAllF`. -/
def removeBrF : Nat → List Char → List Char
  | 0, _ => []
  | _ + 1, [] => []
  | fuel + 1, c :: cs =>
    if c = '[' then
      match cs.dropWhile (fun x => x ≠ ']') with
      | [] => '[' :: removeBrF fuel cs
      | _ :: rest => removeBrF fuel rest
    else c :: removeBrF fuel cs

/-- The bracket-stripping substitution on a whole string. -/
def removeBr (l : List Char) : List Char := removeBrF l.length l

/-- The inner `vaz_match` of `_search_vaz_model` (lines 146–150): strip
bracketed annotations, split the model field on `/` and `,`, and test the
query token for exact sub-token membership (both sides lowercased). -/
def vaz_match (vazModel : String) (modelField : String) : Bool :=
  let m1 := removeBr modelField.data
  let m2 := m1.map (fun c => if c = '/' || c = ',' then ' ' else c)
  (splitWs (m2.map pyLower)).contains (pyLowerStr vazModel)

/-- `_search_vaz_model` (lines 132–165): matches (year-filtered when a year
is present), the substring-similar fallback, and the strategy tag. -/
def searchVazModel (df : List CarRecord) (vazModel : String) (year : Option Int) :
    List CarRecord × List CarRecord × String :=
  let vazMatches := df.filter (fun r => vaz_match vazModel r.model)
  let vazMatches :=
    if pyTruthy year then
      vazMatches.filter (fun r => year_in_rangeS r.years (year.getD 0))
    else vazMatches
  let similar :=
    if vazMatches.isEmpty then df.filter (fun r => pyIn vazModel.data r.model.data)
    else []
  (vazMatches, similar, "vaz model+year")

/-- The regex `^[ix]?\d+[a-z]*$` of `_search_brand_model` line 182. -/
def modelNumPat (l : List Char) : Bool :=
  let l1 := match l with
    | c :: cs => if c = 'i' || c = 'x' then cs else c :: cs
    | [] => []
  let ds := l1.takeWhile Char.isDigit
  let rest := l1.dropWhile Char.isDigit
  !ds.isEmpty && rest.all (fun c => decide ('a' ≤ c) && decide (c ≤ 'z'))

/-- `self.df['model_lower'].str.match(rf"^{model_part}\b")`: `model_part`
as a prefix followed by a word boundary (`model_part` is alphanumeric in
this branch, so it has no regex metacharacters). -/
def matchWordStart (p : List Char) (l : List Char) : Bool :=
  p.isPrefixOf l && boundaryR (l.drop p.length)

/-- The all-words-substring row predicate shared by `_search_brand_model`
step 1 and `_search_multiple_words` (`word in brand_lower + ' ' + model_lower`). -/
def rowMatchAll (parts : List String) (r : CarRecord) : Bool :=
  parts.all (fun w => pyIn w.data (r.brand_lower ++ " " ++ r.model_lower).data)

/-- `_search_brand_model` (lines 167–206). -/
def searchBrandModel (df : List CarRecord) (brand modelPart : String) :
    List CarRecord × String :=
  let strictOk := pyIsdigit modelPart || modelNumPat modelPart.data
  let mStrict :=
    if strictOk then
      df.filter (fun r =>
        decide (r.brand_lower = brand)
          && (modelPart.data.isPrefixOf r.model_lower.data
              || matchWordStart modelPart.data r.model_lower.data))
    else []
  if strictOk && !mStrict.isEmpty then (mStrict, "brand+model startswith")
  else
    let m1 := df.filter (rowMatchAll [brand, modelPart])
    if !m1.isEmpty then (m1, "all words in brand+model") else ([], "")

/-- `_search_multiple_words` (lines 208–229). -/
def searchMultipleWords (df : List CarRecord) (parts : List String) :
    List CarRecord × String :=
  let m1 := df.filter (rowMatchAll parts)
  if !m1.isEmpty then (m1, "all words in brand+model") else ([], "")

/-- Fuel-driven core of `drop_duplicates` (filtering only shortens the
list, so an initial fuel of the list length suffices). -/
def pdDropDuplicatesF {α : Type} [DecidableEq α] : Nat → List α → List α
  | 0, _ => []
  | _ + 1, [] => []
  | fuel + 1, x :: xs => x :: pdDropDuplicatesF fuel (xs.filter (fun y => y ≠ x))

/-- `pd.concat(..).drop_duplicates()`: keep the first occurrence of each
row value. -/
def pdDropDuplicates {α : Type} [DecidableEq α] (l : List α) : List α :=
  pdDropDuplicatesF l.length l

/-- `_search_single_word` (lines 231–269): the five-stage fallback chain. -/
def searchSingleWord (df : List CarRecord) (word : String) :
    List CarRecord × String :=
  let mBrand := df.filter (fun r => r.brand_lower = word)
  if !mBrand.isEmpty then (mBrand, "brand==")
  else
    let mModel := df.filter (fun r => r.model_lower = word)
    let mModelContains := df.filter (fun r => pyIn word.data r.model_lower.data)
    let mModelTotal := pdDropDuplicates (mModel ++ mModelContains)
    if !mModelTotal.isEmpty then (mModelTotal, "model contains all")
    else
      let mBrandFuzzy := df.filter (fun r => pyIn word.data r.brand_lower.data)
      if !mBrandFuzzy.isEmpty then (mBrandFuzzy, "brand contains (fallback)")
      else
        let m2 := df.filter (fun r => (splitWs r.model_lower.data).contains word)
        if !m2.isEmpty then (m2, "model word")
        else
          let mModelContains2 := df.filter (fun r => pyIn word.data r.model_lower.data)
          if !mModelContains2.isEmpty then (mModelContains2, "model contains (fallback)")
          else ([], "")

/-- `_search_similar_by_year_word` (lines 271–289): the raw model field,
split on `/`, `,` and whitespace, contains the word as an exact token. -/
def searchSimilarByYearWord (df : List CarRecord) (word : String) : List CarRecord :=
  df.filter (fun r =>
    (splitWs (r.model.data.map (fun c => if c = '/' || c = ',' then ' ' else c))).contains word)

/-- Lines 47–57 of `search`: normalize, extract the year, strip it, split
into tokens, and apply the synonym table.  Returns the rewritten tokens and
the extracted year. -/
def queryTokens (query : String) (syn : SynTable) : List String × Option Int :=
  let qn := (normalize query).data
  let year := findYear none qn
  let qwy :=
    if pyTruthy year then pyStrip (subWordAll (toString (year.getD 0)).data none qn)
    else qn
  (apply_synonyms (splitWs qwy) syn, year)

/-- The strategy dispatch on lines 60–86 of `search`: the chosen strategy's
matches, its similar set, and the recorded fallback tags. -/
def dispatch (df : List CarRecord) (ps : List String) (year : Option Int) :
    List CarRecord × List CarRecord × List String :=
  if ps.length = 1 && pyIsdigit (ps.headD "")
      && (decide ((ps.headD "").data.length = 3) || decide ((ps.headD "").data.length = 4)) then
    let r := searchVazModel df (ps.headD "") year
    (r.1, r.2.1, if !r.1.isEmpty || !r.2.1.isEmpty then [r.2.2] else [])
  else if ps.length = 2 then
    let r := searchBrandModel df (ps.headD "") (ps.getD 1 "")
    (r.1, [], if !r.1.isEmpty then [r.2] else [])
  else if ps.length ≥ 3 then
    let r := searchMultipleWords df ps
    (r.1, [], if !r.1.isEmpty then [r.2] else [])
  else if ps.length = 1 && (ps.headD "").data.length > 1 then
    let r := searchSingleWord df (ps.headD "")
    (r.1, [], if !r.1.isEmpty then [r.2] else [])
  else ([], [], [])

/-- The structured result of one cascade invocation (the `debug_log`
strings are omitted). -/
structure QueryResult where
  matches' : List CarRecord
  similar : List CarRecord
  fallbacks : List String
deriving DecidableEq

/-- `CarSearchEngine.search` on a cache miss (lines 45–113): tokenization,
dispatch, the similar-set recomputation when matches are empty and a year
exists (lines 89–90), and the final year filter (lines 93–96). -/
def search_compute (df : List CarRecord) (query : String) (syn : SynTable) : QueryResult :=
  let pt := queryTokens query syn
  let d := dispatch df pt.1 pt.2
  let similar :=
    if d.1.isEmpty && pyTruthy pt.2 && decide (1 ≤ pt.1.length) then
      searchSimilarByYearWord df (pt.1.headD "")
    else d.2.1
  let mts :=
    if !d.1.isEmpty && pyTruthy pt.2 then
      d.1.filter (fun r => year_in_rangeS r.years (pt.2.getD 0))
    else d.1
  ⟨mts, similar, d.2.2⟩

/-! ## Helper lemmas -/

/-- `Char.toNat` is injective. -/
theorem toNat_inj {a b : Char} (h : a.toNat = b.toNat) : a = b := by
  have ha := Char.ofNat_toNat a
  rw [h, Char.ofNat_toNat] at ha
  exact ha.symm

/-- `Char.ofNat` round-trips on valid codepoints. -/
theorem toNat_ofNat_valid {n : Nat} (h : Nat.isValidChar n) : (Char.ofNat n).toNat = n := by
  rw [Char.ofNat, dif_pos h]
  rfl

/-- `Char.ofNat` round-trips below the surrogate range. -/
theorem toNat_ofNat_lt {n : Nat} (h : n < 0xD800) : (Char.ofNat n).toNat = n :=
  toNat_ofNat_valid (Or.inl h)

/-- Codepoint arithmetic of `pyLower`. -/
theorem pyLower_toNat (c : Char) :
    (pyLower c).toNat =
      (if 65 ≤ c.toNat ∧ c.toNat ≤ 90 then c.toNat + 32
       else if 0x410 ≤ c.toNat ∧ c.toNat ≤ 0x42F then c.toNat + 32
       else if c.toNat = 0x401 then 0x451
       else c.toNat) := by
  unfold pyLower
  split
  · next h => exact toNat_ofNat_lt (by omega)
  · split
    · next h₁ h₂ => exact toNat_ofNat_lt (by omega)
    · split
      · next h₁ h₂ h₃ => exact toNat_ofNat_lt (by omega)
      · rfl

/-- `pyLower` is idempotent. -/
theorem pyLower_idem (c : Char) : pyLower (pyLower c) = pyLower c := by
  apply toNat_inj
  rw [pyLower_toNat, pyLower_toNat c]
  repeat' split
  all_goals omega

/-- Lookup through the overwrite map of `dinsert`, same key. -/
theorem alookup_map_self {β : Type} (t : List (String × β)) (k : String) (v : β)
    (hs : (alookup k t).isSome = true) :
    alookup k (t.map (fun p => if p.1 = k then (k, v) else p)) = some v := by
  induction t with
  | nil => simp [alookup] at hs
  | cons p t ih =>
    obtain ⟨a, b⟩ := p
    simp only [List.map_cons]
    by_cases hak : a = k
    · have h1 : (if (a, b).1 = k then (k, v) else (a, b)) = (k, v) := if_pos hak
      rw [h1]
      simp [alookup]
    · have h1 : (if (a, b).1 = k then (k, v) else (a, b)) = (a, b) := if_neg hak
      rw [h1]
      have hs' : (alookup k t).isSome = true := by
        simpa [alookup, hak] using hs
      simp only [alookup, if_neg hak]
      exact ih hs'

/-- Lookup through the overwrite map of `dinsert`, different key. -/
theorem alookup_map_ne {β : Type} (t : List (String × β)) {k k' : String} (v : β)
    (hne : k' ≠ k) :
    alookup k' (t.map (fun p => if p.1 = k then (k, v) else p)) = alookup k' t := by
  induction t with
  | nil => rfl
  | cons p t ih =>
    obtain ⟨a, b⟩ := p
    simp only [List.map_cons]
    by_cases hak : a = k
    · have h1 : (if (a, b).1 = k then (k, v) else (a, b)) = (k, v) := if_pos hak
      rw [h1]
      have hak' : ¬a = k' := by rw [hak]; exact Ne.symm hne
      simp only [alookup, if_neg (Ne.symm hne), if_neg hak']
      exact ih
    · have h1 : (if (a, b).1 = k then (k, v) else (a, b)) = (a, b) := if_neg hak
      rw [h1]
      by_cases hak' : a = k' <;> simp [alookup, hak', ih]

/-- Lookup after appending a fresh binding, same key. -/
theorem alookup_append_self {β : Type} (t : List (String × β)) (k : String) (v : β)
    (hs : alookup k t = none) : alookup k (t ++ [(k, v)]) = some v := by
  induction t with
  | nil => simp [alookup]
  | cons p t ih =>
    obtain ⟨a, b⟩ := p
    by_cases hak : a = k
    · simp [alookup, hak] at hs
    · have hs' : alookup k t = none := by simpa [alookup, hak] using hs
      simpa [alookup, hak] using ih hs'

/-- Lookup after appending a binding for a different key. -/
theorem alookup_append_ne {β : Type} (t : List (String × β)) {k k' : String} (v : β)
    (hne : k' ≠ k) : alookup k' (t ++ [(k, v)]) = alookup k' t := by
  induction t with
  | nil => simp [alookup, Ne.symm hne]
  | cons p t ih =>
    obtain ⟨a, b⟩ := p
    by_cases hak' : a = k' <;> simp [alookup, hak', ih]

/-- `dict` lookup after inserting the same key. -/
theorem alookup_dinsert_self {β : Type} (m : List (String × β)) (k : String) (v : β) :
    alookup k (dinsert m k v) = some v := by
  unfold dinsert
  split
  · next hs => exact alookup_map_self m k v hs
  · next hs =>
    exact alookup_append_self m k v (by
      cases h : alookup k m with
      | none => rfl
      | some b => rw [h] at hs; simp at hs)

/-- `dict` lookup of a different key after an insert. -/
theorem alookup_dinsert_ne {β : Type} (m : List (String × β)) {k k' : String} (v : β)
    (hne : k' ≠ k) : alookup k' (dinsert m k v) = alookup k' m := by
  unfold dinsert
  split
  · exact alookup_map_ne m v hne
  · exact alookup_append_ne m v hne

/-- A key absent after filtering it out. -/
theorem alookup_filter_self {β : Type} (m : List (String × β)) (q : String) :
    alookup q (m.filter (fun p => p.1 ≠ q)) = none := by
  induction m with
  | nil => rfl
  | cons p t ih =>
    obtain ⟨a, b⟩ := p
    by_cases haq : a = q
    · simpa [List.filter, haq] using ih
    · simpa [List.filter, haq, alookup] using ih

/-- Filtering twice with the same predicate is filtering once. -/
theorem filter_idem {α : Type} (p : α → Bool) (l : List α) :
    (l.filter p).filter p = l.filter p := by
  rw [List.filter_filter]
  induction l with
  | nil => rfl
  | cons a t ih => by_cases h : p a <;> simp [List.filter_cons, h, ih]

/-- `drop_duplicates` returns an empty frame only on an empty frame. -/
theorem pdDropDuplicates_eq_nil {α : Type} [DecidableEq α] (l : List α) :
    pdDropDuplicates l = [] ↔ l = [] := by
  cases l <;> simp [pdDropDuplicates, pdDropDuplicatesF]

/-- `Char.isDigit` bounds the codepoint. -/
theorem digit_toNat {c : Char} (h : c.isDigit = true) : 48 ≤ c.toNat ∧ c.toNat ≤ 57 := by
  simp only [Char.isDigit, Bool.and_eq_true, decide_eq_true_eq] at h
  obtain ⟨h1, h2⟩ := h
  exact ⟨h1, h2⟩

/-- A successful `yearAt` match yields a value in `[1900, 2100)`. -/
theorem yearAt_range {l : List Char} {y : Int} (h : yearAt l = some y) :
    1900 ≤ y ∧ y < 2100 := by
  match l with
  | [] => simp [yearAt] at h
  | [c1] => simp [yearAt] at h
  | [c1, c2] => simp [yearAt] at h
  | [c1, c2, c3] => simp [yearAt] at h
  | c1 :: c2 :: c3 :: c4 :: rest =>
    rw [yearAt] at h
    split at h
    · next hcond =>
      simp only [Bool.and_eq_true, Bool.or_eq_true, decide_eq_true_eq] at hcond
      obtain ⟨⟨⟨h12, h3⟩, h4⟩, _⟩ := hcond
      obtain ⟨hd3, hd3'⟩ := digit_toNat h3
      obtain ⟨hd4, hd4'⟩ := digit_toNat h4
      injection h with h
      subst h
      rcases h12 with ⟨hc1, hc2⟩ | ⟨hc1, hc2⟩
      · subst hc1; subst hc2
        simp only [digitsToInt, digitsToNat, List.foldl]
        have e1 : ('1' : Char).toNat = 49 := rfl
        have e2 : ('9' : Char).toNat = 57 := rfl
        rw [e1, e2]
        omega
      · subst hc1; subst hc2
        simp only [digitsToInt, digitsToNat, List.foldl]
        have e1 : ('2' : Char).toNat = 50 := rfl
        have e2 : ('0' : Char).toNat = 48 := rfl
        rw [e1, e2]
        omega
    · exact absurd h (by simp)

/-- `findYear` only ever returns values in `[1900, 2100)`. -/
theorem findYear_range (l : List Char) : ∀ (prev : Option Char) (y : Int),
    findYear prev l = some y → 1900 ≤ y ∧ y < 2100 := by
  induction l with
  | nil => intro prev y h; simp [findYear] at h
  | cons c cs ih =>
    intro prev y h
    rw [findYear] at h
    by_cases hb : boundaryL prev = true
    · rw [if_pos hb] at h
      cases hy : yearAt (c :: cs) with
      | none => rw [hy] at h; exact ih _ _ h
      | some y' =>
        rw [hy] at h
        simp only at h
        injection h with h
        subst h
        exact yearAt_range hy
    · rw [if_neg hb] at h
      exact ih _ _ h

/-- The dispatch branch for a single numeric token of length 3–4 invokes
the VAZ numeric-model strategy. -/
theorem dispatch_vaz (df : List CarRecord) (tok : String) (year : Option Int)
    (h1 : pyIsdigit tok = true) (h2 : tok.data.length = 3 ∨ tok.data.length = 4) :
    dispatch df [tok] year =
      ((searchVazModel df tok year).1, (searchVazModel df tok year).2.1,
        if !(searchVazModel df tok year).1.isEmpty
            || !(searchVazModel df tok year).2.1.isEmpty
        then [(searchVazModel df tok year).2.2] else []) := by
  unfold dispatch
  rw [if_pos]
  · rfl
  · rcases h2 with h2 | h2 <;> simp [h1, h2, List.headD]

/-! ## Claims -/

/-- C1: the claim says a bare two-digit single-year string such as "05.10"
(no dash) makes `year_in_range` return true only when the probe year equals
the encoded year (2010).  The code instead treats it as an open-ended range
`year >= 2010`: the fifth pattern `(\d{2})\.(\d{2})-?` has an optional
dash, so it also matches the dash-less string and shadows the documented
bare-equality branch (text_utils.py lines 102–107), which is unreachable.
This theorem evaluates the embedded code at the failing input: 2015 is
accepted although 2015 ≠ 2010. -/
theorem C1_bare_two_digit_open_ended :
    year_in_range (.pstr "05.10") 2015 = true
      ∧ year_in_range (.pstr "05.10") 2010 = true
      ∧ year_in_range (.pstr "05.10") 2009 = false := by decide

/-- C5: `apply_synonyms` first looks the whole space-joined, lowercased
phrase up in the table and returns the single-element canonical rewrite on
a hit; otherwise it rewrites the tokens independently, passing unmapped
tokens through unchanged. -/
theorem C5_apply_synonyms_phrase_first (parts : List String) (syn : SynTable) :
    apply_synonyms parts syn =
      match alookup (pyLowerStr (joinSpace parts)) syn with
      | some canon => [canon]
      | none => parts.map (fun w => (alookup w syn).getD w) := by
  unfold apply_synonyms
  cases h : alookup (pyLowerStr (joinSpace parts)) syn <;> simp [h]

/-- C7: after `set(key, value)` at time `t0`, `get(key)` at time `t`
returns the stored value while `t - t0 < TTL`, and once `t - t0 ≥ TTL` it
returns `none` and the entry is evicted from the cache. -/
theorem C7_cache_ttl_roundtrip {α : Type} (c : SearchCache α) (q : String) (r : α)
    (t0 t : Int) :
    (t - t0 < c.expiry →
        ((c.set q r t0).get q t).1 = some r ∧ ((c.set q r t0).get q t).2 = c.set q r t0)
      ∧ (c.expiry ≤ t - t0 →
        ((c.set q r t0).get q t).1 = none
          ∧ alookup q ((c.set q r t0).get q t).2.entries = none) := by
  have hl : alookup q (c.set q r t0).entries = some (t0, r) :=
    alookup_dinsert_self c.entries q (t0, r)
  constructor
  · intro hfresh
    rw [SearchCache.get, hl]
    simp only [SearchCache.set] at hfresh ⊢
    rw [if_pos hfresh]
    exact ⟨rfl, rfl⟩
  · intro hstale
    rw [SearchCache.get, hl]
    simp only [SearchCache.set] at hstale ⊢
    rw [if_neg (by omega)]
    exact ⟨rfl, alookup_filter_self _ q⟩

/-- C7 witness: a concrete round trip at TTL 300 with both sides of the
expiry boundary exercised. -/
theorem C7_cache_ttl_roundtrip_witness :
    ((SearchCache.mk ([] : List (String × (Int × Int))) 300).set "q" (7 : Int) 1000).get "q" 1200
        = (some 7, (SearchCache.mk ([] : List (String × (Int × Int))) 300).set "q" (7 : Int) 1000)
      ∧ (((SearchCache.mk ([] : List (String × (Int × Int))) 300).set "q" (7 : Int) 1000).get
          "q" 1300).1 = none := by
  refine ⟨?_, ?_⟩
  · have h1 := (C7_cache_ttl_roundtrip (SearchCache.mk ([] : List (String × Int × Int)) 300)
      "q" 7 1000 1200).1 (by decide)
    exact Prod.ext h1.1 h1.2
  · exact ((C7_cache_ttl_roundtrip (SearchCache.mk ([] : List (String × Int × Int)) 300)
      "q" 7 1000 1300).2 (by decide)).1

/-- Unfolded form of the match set of `search_compute`. -/
theorem search_compute_matches_eq (df : List CarRecord) (q : String) (syn : SynTable) :
    (search_compute df q syn).matches' =
      if !(dispatch df (queryTokens q syn).1 (queryTokens q syn).2).1.isEmpty
          && pyTruthy (queryTokens q syn).2 then
        (dispatch df (queryTokens q syn).1 (queryTokens q syn).2).1.filter
          (fun r => year_in_rangeS r.years ((queryTokens q syn).2.getD 0))
      else (dispatch df (queryTokens q syn).1 (queryTokens q syn).2).1 := rfl

/-- Unfolded form of the similar set of `search_compute`. -/
theorem search_compute_similar_eq (df : List CarRecord) (q : String) (syn : SynTable) :
    (search_compute df q syn).similar =
      if (dispatch df (queryTokens q syn).1 (queryTokens q syn).2).1.isEmpty
          && pyTruthy (queryTokens q syn).2 && decide (1 ≤ (queryTokens q syn).1.length) then
        searchSimilarByYearWord df ((queryTokens q syn).1.headD "")
      else (dispatch df (queryTokens q syn).1 (queryTokens q syn).2).2.1 := rfl

/-- Unfolded form of the fallback tags of `search_compute`. -/
theorem search_compute_fallbacks_eq (df : List CarRecord) (q : String) (syn : SynTable) :
    (search_compute df q syn).fallbacks =
      (dispatch df (queryTokens q syn).1 (queryTokens q syn).2).2.2 := rfl

/-- Unfolded form of the VAZ strategy's match set. -/
theorem searchVazModel_matches_eq (df : List CarRecord) (tok : String) (year : Option Int) :
    (searchVazModel df tok year).1 =
      if pyTruthy year then
        (df.filter (fun r => vaz_match tok r.model)).filter
          (fun r => year_in_rangeS r.years (year.getD 0))
      else df.filter (fun r => vaz_match tok r.model) := rfl

/-- Unfolded form of the VAZ strategy's similar set. -/
theorem searchVazModel_similar_eq (df : List CarRecord) (tok : String) (year : Option Int) :
    (searchVazModel df tok year).2.1 =
      if (searchVazModel df tok year).1.isEmpty then
        df.filter (fun r => pyIn tok.data r.model.data)
      else [] := rfl

/-- C2: for the query "ваз 2114", when the token pipeline yields the single
numeric token "2114" (as the spec's scenario presupposes of the deployed
synonym table), the cascade dispatches the VAZ numeric-model strategy —
its tag is the recorded fallback — and every dataset record whose model
field is "2108/2109/2114" is in the returned match set. -/
theorem C2_vaz_numeric_scenario (df : List CarRecord) (syn : SynTable) (rec : CarRecord)
    (hp : (queryTokens "ваз 2114" syn).1 = ["2114"])
    (hrec : rec ∈ df) (hmod : rec.model = "2108/2109/2114") :
    (search_compute df "ваз 2114" syn).fallbacks = ["vaz model+year"]
      ∧ rec ∈ (search_compute df "ваз 2114" syn).matches' := by
  have hyear : (queryTokens "ваз 2114" syn).2 = none := rfl
  have hq : queryTokens "ваз 2114" syn = (["2114"], none) := Prod.ext hp hyear
  have hmem : rec ∈ (searchVazModel df "2114" none).1 :=
    List.mem_filter.mpr ⟨hrec, by rw [hmod]; decide⟩
  have hie : (searchVazModel df "2114" none).1.isEmpty = false :=
    List.isEmpty_eq_false.mpr (List.ne_nil_of_mem hmem)
  constructor
  · rw [search_compute_fallbacks_eq]
    simp only [hq]
    rw [dispatch_vaz df "2114" none (by decide) (by decide)]
    simp only [hie, Bool.not_false, Bool.true_or, if_true]
    rfl
  · rw [search_compute_matches_eq]
    simp only [hq]
    rw [dispatch_vaz df "2114" none (by decide) (by decide)]
    simp only [pyTruthy, Bool.and_false, if_false]
    exact hmem

/-- C2 witness: one concrete record with model "2108/2109/2114" and a
synonym table rewriting the phrase "vaz 2114" to "2114". -/
theorem C2_vaz_numeric_scenario_witness :
    (queryTokens "ваз 2114" [("vaz 2114", "2114")]).1 = ["2114"]
      ∧ (search_compute [⟨"ваз", "2108/2109/2114", "10.16", "vaz", "2108/2109/2114"⟩]
          "ваз 2114" [("vaz 2114", "2114")]).fallbacks = ["vaz model+year"]
      ∧ (⟨"ваз", "2108/2109/2114", "10.16", "vaz", "2108/2109/2114"⟩ : CarRecord)
          ∈ (search_compute [⟨"ваз", "2108/2109/2114", "10.16", "vaz", "2108/2109/2114"⟩]
              "ваз 2114" [("vaz 2114", "2114")]).matches' :=
  ⟨by decide,
    C2_vaz_numeric_scenario [⟨"ваз", "2108/2109/2114", "10.16", "vaz", "2108/2109/2114"⟩]
      [("vaz 2114", "2114")] ⟨"ваз", "2108/2109/2114", "10.16", "vaz", "2108/2109/2114"⟩
      (by decide) (by decide) (by decide)⟩

/-- C4: when a year was extracted and the dispatched strategy's match set
is non-empty, the returned matches are exactly the strategy's matches
restricted to records whose year range contains the year, and the similar
set is returned without any year filtering. -/
theorem C4_final_year_filter (df : List CarRecord) (q : String) (syn : SynTable) (y : Int)
    (hy : (queryTokens q syn).2 = some y)
    (hm : (dispatch df (queryTokens q syn).1 (some y)).1 ≠ []) :
    (search_compute df q syn).matches'
        = (dispatch df (queryTokens q syn).1 (some y)).1.filter
            (fun r => year_in_rangeS r.years y)
      ∧ (search_compute df q syn).similar
        = (dispatch df (queryTokens q syn).1 (some y)).2.1 := by
  have hyr := findYear_range (normalize q).data none y hy
  have hy0 : y ≠ 0 := by omega
  have hdy : pyTruthy (some y) = true := by simp [pyTruthy, hy0]
  have hie : (dispatch df (queryTokens q syn).1 (some y)).1.isEmpty = false :=
    List.isEmpty_eq_false.mpr hm
  constructor
  · rw [search_compute_matches_eq]
    simp only [hy, hie, hdy, Option.getD_some, Bool.not_false, Bool.and_true,
      if_true, Bool.true_and]
  · rw [search_compute_similar_eq]
    simp only [hy, hie, Bool.false_and, if_false]
    rfl

/-- C4 witness: query "bmw 2015" against one record "bmw x5, 2010-2020";
the single-word strategy matches it and the year filter keeps it. -/
theorem C4_final_year_filter_witness :
    (search_compute [⟨"bmw", "x5", "2010-2020", "bmw", "x5"⟩] "bmw 2015" []).matches'
        = (dispatch [⟨"bmw", "x5", "2010-2020", "bmw", "x5"⟩]
            (queryTokens "bmw 2015" []).1 (some 2015)).1.filter
              (fun r => year_in_rangeS r.years 2015)
      ∧ (search_compute [⟨"bmw", "x5", "2010-2020", "bmw", "x5"⟩] "bmw 2015" []).similar
        = (dispatch [⟨"bmw", "x5", "2010-2020", "bmw", "x5"⟩]
            (queryTokens "bmw 2015" []).1 (some 2015)).2.1 :=
  C4_final_year_filter [⟨"bmw", "x5", "2010-2020", "bmw", "x5"⟩] "bmw 2015" [] 2015
    (by decide) (by decide)

/-- C3 (amended): for a single-numeric-token query whose final match set is
empty, the similar set is the raw-substring fallback only when NO year was
extracted; when a year was extracted, line 90 of search.py overwrites it
with the year-word fallback (model field split on `/`, `,` and whitespace,
exact token match). -/
theorem C3_numeric_similar_fallback (df : List CarRecord) (q : String) (syn : SynTable)
    (tok : String)
    (hp : (queryTokens q syn).1 = [tok])
    (hdig : pyIsdigit tok = true)
    (hlen : tok.data.length = 3 ∨ tok.data.length = 4)
    (hm : (search_compute df q syn).matches' = []) :
    (search_compute df q syn).similar =
      match (queryTokens q syn).2 with
      | none => df.filter (fun r => pyIn tok.data r.model.data)
      | some _ => searchSimilarByYearWord df tok := by
  cases hyr : (queryTokens q syn).2 with
  | none =>
    have hq : queryTokens q syn = ([tok], none) := Prod.ext hp hyr
    rw [search_compute_matches_eq] at hm
    simp only [hq] at hm
    rw [dispatch_vaz df tok none hdig hlen] at hm
    simp only [pyTruthy, Bool.and_false, if_false] at hm
    have hV : (searchVazModel df tok none).1 = [] := hm
    have hVie : (searchVazModel df tok none).1.isEmpty = true := by
      rw [hV]; rfl
    rw [search_compute_similar_eq]
    simp only [hq]
    rw [dispatch_vaz df tok none hdig hlen]
    simp only [pyTruthy, Bool.and_false, Bool.false_and, if_false]
    rw [searchVazModel_similar_eq, hVie, if_pos rfl]
    rfl
  | some y =>
    have hyrange := findYear_range (normalize q).data none y hyr
    have hy0 : y ≠ 0 := by omega
    have hdy : pyTruthy (some y) = true := by simp [pyTruthy, hy0]
    have hq : queryTokens q syn = ([tok], some y) := Prod.ext hp hyr
    have hVdef : (searchVazModel df tok (some y)).1
        = (df.filter (fun r => vaz_match tok r.model)).filter
            (fun r => year_in_rangeS r.years y) := by
      rw [searchVazModel_matches_eq, if_pos hdy]
      rfl
    have hV : (searchVazModel df tok (some y)).1 = [] := by
      by_contra hne
      have hie : (searchVazModel df tok (some y)).1.isEmpty = false :=
        List.isEmpty_eq_false.mpr hne
      rw [search_compute_matches_eq] at hm
      simp only [hq] at hm
      rw [dispatch_vaz df tok (some y) hdig hlen] at hm
      simp only [hie, hdy, Bool.not_false, Bool.and_true, if_true,
        Option.getD_some] at hm
      rw [hVdef, filter_idem, ← hVdef] at hm
      exact hne hm
    have hVie : (searchVazModel df tok (some y)).1.isEmpty = true := by
      rw [hV]; rfl
    rw [search_compute_similar_eq]
    simp only [hq]
    rw [dispatch_vaz df tok (some y) hdig hlen]
    simp only [hVie, hdy, Bool.true_and, Bool.and_true, List.length_cons,
      List.length_nil, Nat.le_refl, decide_true_eq_true, if_true]
    rfl

/-- C3 witness (for the amended claim): query "2114 2015" with a dataset
whose only model is "21140"; the match set is empty, a year is extracted,
and the similar set equals the year-word fallback (which is empty), not the
substring fallback. -/
theorem C3_numeric_similar_fallback_witness :
    (queryTokens "2114 2015" []).1 = ["2114"]
      ∧ (search_compute [⟨"ваз", "21140", "10.16", "vaz", "21140"⟩] "2114 2015" []).matches'
          = []
      ∧ (search_compute [⟨"ваз", "21140", "10.16", "vaz", "21140"⟩] "2114 2015" []).similar
          = match (queryTokens "2114 2015" []).2 with
            | none => [⟨"ваз", "21140", "10.16", "vaz", "21140"⟩].filter
                (fun r => pyIn "2114".data r.model.data)
            | some _ => searchSimilarByYearWord [⟨"ваз", "21140", "10.16", "vaz", "21140"⟩]
                "2114" :=
  ⟨by decide, by decide,
    C3_numeric_similar_fallback [⟨"ваз", "21140", "10.16", "vaz", "21140"⟩] "2114 2015" []
      "2114" (by decide) (by decide) (by decide) (by decide)⟩

/-- C3 counterexample: the claim as stated — similar always equals the
raw-substring set when matches are empty — fails when a year was extracted:
for query "2114 2015" with one record of model "21140" (a raw-substring
match for "2114" but not a token match), the claimed similar set holds the
record while the code's similar set is empty. -/
theorem C3_numeric_similar_cex :
    (queryTokens "2114 2015" []).1 = ["2114"]
      ∧ (search_compute [⟨"ваз", "21140", "10.16", "vaz", "21140"⟩] "2114 2015" []).matches'
          = []
      ∧ (search_compute [⟨"ваз", "21140", "10.16", "vaz", "21140"⟩] "2114 2015" []).similar
          ≠ [(⟨"ваз", "21140", "10.16", "vaz", "21140"⟩ : CarRecord)].filter
              (fun r => pyIn "2114".data r.model.data) := by decide

/-- Unfolded form of `searchSingleWord` (the `let`s zeta-reduced). -/
theorem searchSingleWord_eq (df : List CarRecord) (word : String) :
    searchSingleWord df word =
      (if !(df.filter (fun r => r.brand_lower = word)).isEmpty then
        (df.filter (fun r => r.brand_lower = word), "brand==")
      else if !(pdDropDuplicates (df.filter (fun r => r.model_lower = word)
            ++ df.filter (fun r => pyIn word.data r.model_lower.data))).isEmpty then
        (pdDropDuplicates (df.filter (fun r => r.model_lower = word)
            ++ df.filter (fun r => pyIn word.data r.model_lower.data)), "model contains all")
      else if !(df.filter (fun r => pyIn word.data r.brand_lower.data)).isEmpty then
        (df.filter (fun r => pyIn word.data r.brand_lower.data), "brand contains (fallback)")
      else if !(df.filter (fun r => (splitWs r.model_lower.data).contains word)).isEmpty then
        (df.filter (fun r => (splitWs r.model_lower.data).contains word), "model word")
      else if !(df.filter (fun r => pyIn word.data r.model_lower.data)).isEmpty then
        (df.filter (fun r => pyIn word.data r.model_lower.data), "model contains (fallback)")
      else ([], "")) := rfl

/-- C10: implicit claim about `_search_single_word` — the last-resort stage
(v) repeats the substring filter already contained in stage (ii), so if
stages (i)–(iv) all come up empty the function returns the empty match set
with an empty tag: stage (v) can never produce a non-empty result. -/
theorem C10_stage5_unreachable (df : List CarRecord) (word : String)
    (h1 : df.filter (fun r => r.brand_lower = word) = [])
    (h2 : pdDropDuplicates (df.filter (fun r => r.model_lower = word)
            ++ df.filter (fun r => pyIn word.data r.model_lower.data)) = [])
    (h3 : df.filter (fun r => pyIn word.data r.brand_lower.data) = [])
    (h4 : df.filter (fun r => (splitWs r.model_lower.data).contains word) = []) :
    searchSingleWord df word = ([], "") := by
  have hcontains : df.filter (fun r => pyIn word.data r.model_lower.data) = [] :=
    (List.append_eq_nil.mp ((pdDropDuplicates_eq_nil _).mp h2)).2
  rw [searchSingleWord_eq, h1, h2, h3, h4, hcontains]
  rfl

/-- C10 witness: a one-record dataset and a word matching nothing. -/
theorem C10_stage5_unreachable_witness :
    searchSingleWord [⟨"bmw", "x5", "2010-2020", "bmw", "x5"⟩] "zz" = ([], "") :=
  C10_stage5_unreachable [⟨"bmw", "x5", "2010-2020", "bmw", "x5"⟩] "zz"
    (by decide) (by decide) (by decide) (by decide)

/-! ## C9 infrastructure: the `int()` calls inside `year_in_range` never
raise, because every converted capture group comes from a `\d{n}` match. -/

/-- Captures of `takeDigits` are exactly `n` digit characters. -/
theorem takeDigits_spec : ∀ (n : Nat) (l g r : List Char),
    takeDigits n l = some (g, r) → g.length = n ∧ g.all Char.isDigit = true := by
  intro n
  induction n with
  | zero =>
    intro l g r h
    rw [takeDigits] at h
    injection h with h
    cases h
    exact ⟨rfl, rfl⟩
  | succ n ih =>
    intro l g r h
    cases l with
    | nil => exact absurd h (by simp [takeDigits])
    | cons c cs =>
      rw [takeDigits] at h
      by_cases hd : c.isDigit = true
      · rw [if_pos hd] at h
        cases hq : takeDigits n cs with
        | none => rw [hq] at h; simp at h
        | some p =>
          rw [hq] at h
          obtain ⟨g', r'⟩ := p
          simp only [Option.map_some'] at h
          injection h with h
          have hg : c :: g' = g := congrArg Prod.fst h
          subst hg
          obtain ⟨h1, h2⟩ := ih cs g' r' hq
          exact ⟨by simp [h1], by simp [List.all_cons, hd, h2]⟩
      · rw [if_neg hd] at h
        simp at h

/-- `int()` succeeds on a nonempty all-digit capture. -/
theorem pyIntOpt_digits {g : List Char} (hne : g.length ≠ 0)
    (hall : g.all Char.isDigit = true) : pyIntOpt g = some (digitsToInt g) := by
  have : g ≠ [] := fun h => hne (by simp [h])
  simp [pyIntOpt, this, hall]

/-- A capture of `takeDigits (n+1)` converts through `int()`. -/
theorem takeDigits_pyIntOpt {n : Nat} {l g r : List Char}
    (h : takeDigits (n + 1) l = some (g, r)) : pyIntOpt g = some (digitsToInt g) := by
  obtain ⟨h1, h2⟩ := takeDigits_spec (n + 1) l g r h
  exact pyIntOpt_digits (by omega) h2

/-- Group 2 of pattern 1 converts through `int()`. -/
theorem pat1_group2 {l g1 g2 : List Char} (h : pat1 l = some (g1, g2)) :
    pyIntOpt g2 = some (digitsToInt g2) := by
  unfold pat1 at h
  cases h1 : takeDigits 2 l with
  | none => rw [h1] at h; simp at h
  | some p1 =>
    obtain ⟨a1, r1⟩ := p1
    rw [h1] at h
    dsimp only at h
    cases h2 : takeLit '.' r1 with
    | none => rw [h2] at h; simp at h
    | some r2 =>
      rw [h2] at h
      dsimp only at h
      cases h3 : takeDigits 2 r2 with
      | none => rw [h3] at h; simp at h
      | some p2 =>
        obtain ⟨a2, r3⟩ := p2
        rw [h3] at h
        dsimp only at h
        cases h4 : takeLit '-' r3 with
        | none => rw [h4] at h; simp at h
        | some r4 =>
          rw [h4] at h
          dsimp only at h
          by_cases h5 : presentMarker r4 = true
          · rw [if_pos h5] at h
            injection h with h
            have hg : a2 = g2 := congrArg Prod.snd h
            subst hg
            exact takeDigits_pyIntOpt h3
          · rw [if_neg h5] at h
            simp at h

/-- Groups 2 and 4 of pattern 2 convert through `int()`. -/
theorem pat2_groups {l g1 g2 g3 g4 : List Char} (h : pat2 l = some (g1, g2, g3, g4)) :
    pyIntOpt g2 = some (digitsToInt g2) ∧ pyIntOpt g4 = some (digitsToInt g4) := by
  unfold pat2 at h
  cases h1 : takeDigits 2 l with
  | none => rw [h1] at h; simp at h
  | some p1 =>
    obtain ⟨a1, r1⟩ := p1
    rw [h1] at h
    dsimp only at h
    cases h2 : takeLit '.' r1 with
    | none => rw [h2] at h; simp at h
    | some r2 =>
      rw [h2] at h
      dsimp only at h
      cases h3 : takeDigits 2 r2 with
      | none => rw [h3] at h; simp at h
      | some p2 =>
        obtain ⟨a2, r3⟩ := p2
        rw [h3] at h
        dsimp only at h
        cases h4 : takeLit '-' r3 with
        | none => rw [h4] at h; simp at h
        | some r4 =>
          rw [h4] at h
          dsimp only at h
          cases h5 : takeDigits 2 r4 with
          | none => rw [h5] at h; simp at h
          | some p3 =>
            obtain ⟨a3, r5⟩ := p3
            rw [h5] at h
            dsimp only at h
            cases h6 : takeLit '.' r5 with
            | none => rw [h6] at h; simp at h
            | some r6 =>
              rw [h6] at h
              dsimp only at h
              cases h7 : takeDigits 2 r6 with
              | none => rw [h7] at h; simp at h
              | some p4 =>
                obtain ⟨a4, r7⟩ := p4
                rw [h7] at h
                dsimp only at h
                injection h with h
                have hg2 : a2 = g2 := congrArg (fun x => x.2.1) h
                have hg4 : a4 = g4 := congrArg (fun x => x.2.2.2) h
                subst hg2
                subst hg4
                exact ⟨takeDigits_pyIntOpt h3, takeDigits_pyIntOpt h7⟩

/-- Group 1 of pattern 3 converts through `int()`. -/
theorem pat3_group1 {l g1 : List Char} (h : pat3 l = some g1) :
    pyIntOpt g1 = some (digitsToInt g1) := by
  unfold pat3 at h
  cases h1 : takeDigits 4 l with
  | none => rw [h1] at h; simp at h
  | some p1 =>
    obtain ⟨a1, r1⟩ := p1
    rw [h1] at h
    dsimp only at h
    cases h2 : takeLit '-' r1 with
    | none => rw [h2] at h; simp at h
    | some r2 =>
      rw [h2] at h
      dsimp only at h
      by_cases h3 : presentMarker r2 = true
      · rw [if_pos h3] at h
        injection h with h
        subst h
        exact takeDigits_pyIntOpt h1
      · rw [if_neg h3] at h
        simp at h

/-- Groups 1 and 2 of pattern 4 convert through `int()`. -/
theorem pat4_groups {l g1 g2 : List Char} (h : pat4 l = some (g1, g2)) :
    pyIntOpt g1 = some (digitsToInt g1) ∧ pyIntOpt g2 = some (digitsToInt g2) := by
  unfold pat4 at h
  cases h1 : takeDigits 4 l with
  | none => rw [h1] at h; simp at h
  | some p1 =>
    obtain ⟨a1, r1⟩ := p1
    rw [h1] at h
    dsimp only at h
    cases h2 : takeLit '-' r1 with
    | none => rw [h2] at h; simp at h
    | some r2 =>
      rw [h2] at h
      dsimp only at h
      cases h3 : takeDigits 4 r2 with
      | none => rw [h3] at h; simp at h
      | some p2 =>
        obtain ⟨a2, r3⟩ := p2
        rw [h3] at h
        dsimp only at h
        injection h with h
        have hg1 : a1 = g1 := congrArg Prod.fst h
        have hg2 : a2 = g2 := congrArg Prod.snd h
        subst hg1
        subst hg2
        exact ⟨takeDigits_pyIntOpt h1, takeDigits_pyIntOpt h3⟩

/-- Group 2 of pattern 5 (and of the dead bare pattern 7) converts through
`int()`. -/
theorem pat5_group2 {l g1 g2 : List Char} (h : pat5 l = some (g1, g2)) :
    pyIntOpt g2 = some (digitsToInt g2) := by
  unfold pat5 at h
  cases h1 : takeDigits 2 l with
  | none => rw [h1] at h; simp at h
  | some p1 =>
    obtain ⟨a1, r1⟩ := p1
    rw [h1] at h
    dsimp only at h
    cases h2 : takeLit '.' r1 with
    | none => rw [h2] at h; simp at h
    | some r2 =>
      rw [h2] at h
      dsimp only at h
      cases h3 : takeDigits 2 r2 with
      | none => rw [h3] at h; simp at h
      | some p2 =>
        obtain ⟨a2, r3⟩ := p2
        rw [h3] at h
        dsimp only at h
        injection h with h
        have hg : a2 = g2 := congrArg Prod.snd h
        subst hg
        exact takeDigits_pyIntOpt h3

/-- Group 1 of pattern 6 converts through `int()`. -/
theorem pat6_group1 {l g1 : List Char} (h : pat6 l = some g1) :
    pyIntOpt g1 = some (digitsToInt g1) := by
  unfold pat6 at h
  cases h1 : takeDigits 4 l with
  | none => rw [h1] at h; simp at h
  | some p1 =>
    obtain ⟨a1, r1⟩ := p1
    rw [h1] at h
    dsimp only at h
    injection h with h
    subst h
    exact takeDigits_pyIntOpt h1

/-- The exception-aware `year_in_range` agrees with the straight-line one:
no branch ever raises. -/
theorem yearInRangeChk_eq (l : List Char) (y : Int) :
    yearInRangeChk l y = some (yearInRangeStr l y) := by
  unfold yearInRangeChk yearInRangeStr
  dsimp only
  cases h1 : pat1 (preYear l) with
  | some p =>
    obtain ⟨g1, g2⟩ := p
    dsimp only
    rw [pat1_group2 h1]
    rfl
  | none =>
  cases h2 : pat2 (preYear l) with
  | some p =>
    obtain ⟨g1, g2, g3, g4⟩ := p
    obtain ⟨e2, e4⟩ := pat2_groups h2
    dsimp only
    rw [e2, e4]
    rfl
  | none =>
  cases h3 : pat3 (preYear l) with
  | some g1 =>
    dsimp only
    rw [pat3_group1 h3]
    rfl
  | none =>
  cases h4 : pat4 (preYear l) with
  | some p =>
    obtain ⟨g1, g2⟩ := p
    obtain ⟨e1, e2⟩ := pat4_groups h4
    dsimp only
    rw [e1, e2]
    rfl
  | none =>
  cases h5 : pat5 (preYear l) with
  | some p =>
    obtain ⟨g1, g2⟩ := p
    dsimp only
    rw [pat5_group2 h5]
    rfl
  | none =>
  dsimp only
  by_cases hin : (pyIn "н.в".data (preYear l) || pyIn "now".data (preYear l)) = true
  · rw [if_pos hin, if_pos hin]
    rfl
  · rw [if_neg hin, if_neg hin]
    cases h6 : pat6 (preYear l) with
    | some g1 =>
      dsimp only
      rw [pat6_group1 h6]
      rfl
    | none => rfl

/-- `Option.isSome = false` means `none`. -/
theorem isSome_false_eq_none {α : Type} {o : Option α} (h : o.isSome = false) : o = none := by
  cases o with
  | none => rfl
  | some a => simp at h

/-- `List.get?` on a cons cell, by index case. -/
theorem get?_cons (c : Char) (cs : List Char) (j : Nat) :
    (c :: cs).get? j = if j = 0 then some c else cs.get? (j - 1) := by
  cases j <;> rfl

/-- The `re.search` scan fails iff the year pattern matches at no position. -/
theorem findYear_none_iff (l : List Char) : ∀ (prev : Option Char),
    findYear prev l = none ↔
      ∀ i, (boundaryL (if i = 0 then prev else l.get? (i - 1))
            && (yearAt (l.drop i)).isSome) = false := by
  induction l with
  | nil =>
    intro prev
    simp [findYear, yearAt]
  | cons c cs ih =>
    intro prev
    have hstep : findYear prev (c :: cs) = none ↔
        ((if boundaryL prev then yearAt (c :: cs) else none) = none
          ∧ findYear (some c) cs = none) := by
      rw [findYear]
      cases (if boundaryL prev then yearAt (c :: cs) else none) <;> simp
    rw [hstep, ih (some c)]
    constructor
    · rintro ⟨hhead, htail⟩ i
      cases i with
      | zero =>
        rw [if_pos rfl, List.drop_zero]
        cases hbp : boundaryL prev with
        | false => simp
        | true =>
          rw [hbp, if_pos rfl] at hhead
          simp [hhead]
      | succ j =>
        have hb := htail j
        rw [List.drop_succ_cons, if_neg (by omega : ¬j + 1 = 0), Nat.add_sub_cancel,
          get?_cons]
        exact hb
    · intro h
      refine ⟨?_, ?_⟩
      · have h0 := h 0
        rw [if_pos rfl, List.drop_zero] at h0
        cases hbp : boundaryL prev with
        | false => rfl
        | true =>
          rw [hbp, Bool.true_and] at h0
          rw [if_pos rfl]
          exact isSome_false_eq_none h0
      · intro j
        have hb := h (j + 1)
        rw [if_neg (by omega : ¬j + 1 = 0), Nat.add_sub_cancel, get?_cons,
          List.drop_succ_cons] at hb
        exact hb

/-- `extract_year` returns `none` exactly when no year-like token occurs. -/
theorem extract_year_none_iff (s : String) :
    extract_year s = none ↔ hasYearTok s.data = false := by
  rw [extract_year, findYear_none_iff]
  unfold hasYearTok yearTokenAt
  constructor
  · intro h
    rw [List.any_eq_false]
    intro i _
    simpa using h i
  · intro h i
    by_cases hi : i < s.data.length
    · have hme := List.any_eq_false.mp h i (List.mem_range.mpr hi)
      simpa using hme
    · have hd : s.data.drop i = [] := List.drop_eq_nil_of_le (by omega)
      rw [hd]
      simp [yearAt]

/-- C9: `year_in_range` is total and fails closed: the exception-aware
variant always returns a value (the `int()` conversions cannot raise), a
non-string range argument yields false, a string matching none of the
supported formats yields false, and `extract_year` returns `none` (rather
than raising) exactly on input with no year-like token. -/
theorem C9_total_fail_closed :
    (∀ (s : String) (y : Int), yearInRangeChk s.data y = some (yearInRangeStr s.data y))
      ∧ (∀ (v : PyValue) (y : Int), isPyStr v = false → year_in_range v y = false)
      ∧ (∀ (s : String) (y : Int), supportedFormat (preYear s.data) = false →
          year_in_range (.pstr s) y = false)
      ∧ (∀ s : String, extract_year s = none ↔ hasYearTok s.data = false) := by
  refine ⟨fun s y => yearInRangeChk_eq s.data y, ?_, ?_, extract_year_none_iff⟩
  · intro v y hv
    cases v with
    | pstr s => simp [isPyStr] at hv
    | pint n => rfl
    | pnone => rfl
  · intro s y hs
    unfold supportedFormat at hs
    have split2 : ∀ a b : Bool, (a || b) = false → a = false ∧ b = false := by decide
    obtain ⟨hs, hp6⟩ := split2 _ _ hs
    obtain ⟨hs, hnow⟩ := split2 _ _ hs
    obtain ⟨hs, hnv⟩ := split2 _ _ hs
    obtain ⟨hs, hp5⟩ := split2 _ _ hs
    obtain ⟨hs, hp4⟩ := split2 _ _ hs
    obtain ⟨hs, hp3⟩ := split2 _ _ hs
    obtain ⟨hp1, hp2⟩ := split2 _ _ hs
    have e1 := isSome_false_eq_none hp1
    have e2 := isSome_false_eq_none hp2
    have e3 := isSome_false_eq_none hp3
    have e4 := isSome_false_eq_none hp4
    have e5 := isSome_false_eq_none hp5
    have e6 := isSome_false_eq_none hp6
    show yearInRangeStr s.data y = false
    unfold yearInRangeStr
    dsimp only
    rw [e1, e2, e3, e4, e5, e6]
    rw [if_neg (by rw [hnv, hnow]; simp)]

/-- C9 witness: the conjuncts evaluated at concrete inputs ("hello" matches
no supported format; "no year here" holds no year-like token). -/
theorem C9_total_fail_closed_witness :
    yearInRangeChk "05.10-н.в.".data 2014 = some (yearInRangeStr "05.10-н.в.".data 2014)
      ∧ year_in_range (.pint 3) 2015 = false
      ∧ year_in_range (.pstr "hello") 2000 = false
      ∧ extract_year "no year here" = none :=
  ⟨C9_total_fail_closed.1 "05.10-н.в." 2014,
    C9_total_fail_closed.2.1 (.pint 3) 2015 (by decide),
    C9_total_fail_closed.2.2.1 "hello" 2000 (by decide),
    (C9_total_fail_closed.2.2.2 "no year here").mpr (by decide)⟩

/-! ## C8 infrastructure: lookups through the row-fold of `reload_synonyms`. -/

/-- Folding alias inserts with the shared value `b`: a key among the
aliases, or already bound to `b`, ends bound to `b`. -/
theorem alookup_fold_insert (b : String) : ∀ (as : List String)
    (m : List (String × String)) (t : String),
    (t ∈ as ∨ alookup t m = some b) →
    alookup t (as.foldl (fun acc a => dinsert acc a b) m) = some b := by
  intro as
  induction as with
  | nil =>
    intro m t h
    rcases h with h | h
    · simp at h
    · simpa using h
  | cons a rest ih =>
    intro m t h
    simp only [List.foldl_cons]
    by_cases hta : t = a
    · subst hta
      exact ih _ _ (Or.inr (alookup_dinsert_self m t b))
    · rcases h with h | h
      · rcases List.mem_cons.mp h with h | h
        · exact absurd h hta
        · exact ih _ _ (Or.inl h)
      · refine ih _ _ (Or.inr ?_)
        rw [alookup_dinsert_ne m b hta]
        exact h

/-- Folding alias inserts leaves other keys unchanged. -/
theorem alookup_fold_insert_ne (b : String) : ∀ (as : List String)
    (m : List (String × String)) (t : String), t ∉ as →
    alookup t (as.foldl (fun acc a => dinsert acc a b) m) = alookup t m := by
  intro as
  induction as with
  | nil => intro m t _; rfl
  | cons a rest ih =>
    intro m t h
    simp only [List.foldl_cons]
    have h1 : t ≠ a := fun he => h (by simp [he])
    have h2 : t ∉ rest := fun he => h (by simp [he])
    rw [ih _ _ h2, alookup_dinsert_ne m b h1]

/-- Processing one row binds every token of the row to the row's base. -/
theorem alookup_buildRow_self (m : List (String × String)) (r : SynRow) (t : String)
    (h : t ∈ rowTokens r) : alookup t (buildRow m r) = some (rowBase r) := by
  unfold buildRow
  by_cases htb : t = rowBase r
  · subst htb
    exact alookup_dinsert_self _ _ _
  · rcases List.mem_cons.mp h with h | h
    · exact absurd h htb
    · rw [alookup_dinsert_ne _ _ htb]
      exact alookup_fold_insert _ _ _ _ (Or.inl h)

/-- Processing a row leaves keys outside its tokens unchanged. -/
theorem alookup_buildRow_ne (m : List (String × String)) (r : SynRow) (t : String)
    (h : t ∉ rowTokens r) : alookup t (buildRow m r) = alookup t m := by
  unfold buildRow
  have h1 : t ≠ rowBase r := fun he => h (by simp [rowTokens, he])
  have h2 : t ∉ rowAliases r := fun he => h (by simp [rowTokens, he])
  rw [alookup_dinsert_ne _ _ h1, alookup_fold_insert_ne _ _ _ _ h2]

/-- Rows that do not claim `t` preserve its binding. -/
theorem alookup_foldRows_ne : ∀ (rows : List SynRow) (m : List (String × String))
    (t : String), (∀ r ∈ rows, t ∉ rowTokens r) →
    alookup t (rows.foldl buildRow m) = alookup t m := by
  intro rows
  induction rows with
  | nil => intro m t _; rfl
  | cons r rest ih =>
    intro m t h
    simp only [List.foldl_cons]
    rw [ih _ _ (fun r' hr' => h r' (by simp [hr']))]
    exact alookup_buildRow_ne m r t (h r (by simp))

/-- Generalized over the fold's initial dictionary: when no token occurs in
two different rows, every token of a row looks up to that row's base. -/
theorem build_lookup_gen : ∀ (rows : List SynRow) (m : List (String × String)),
    rows.Pairwise (fun r1 r2 => ∀ t ∈ rowTokens r1, t ∉ rowTokens r2) →
    ∀ r ∈ rows, ∀ t ∈ rowTokens r,
      alookup t (rows.foldl buildRow m) = some (rowBase r) := by
  intro rows
  induction rows with
  | nil => intro m _ r hr; simp at hr
  | cons r0 rest ih =>
    intro m hp r hr t ht
    simp only [List.foldl_cons]
    rcases List.mem_cons.mp hr with he | hmem
    · subst he
      have hlater : ∀ r' ∈ rest, t ∉ rowTokens r' := fun r' hr' =>
        (List.pairwise_cons.mp hp).1 r' hr' t ht
      rw [alookup_foldRows_ne rest _ t hlater]
      exact alookup_buildRow_self m r t ht
    · exact ih _ (List.pairwise_cons.mp hp).2 r hmem t ht

/-- C8 (amended): after a successful reload, provided no token (base or
alias) occurs in more than one source row, the built mapping sends every
alias of every row to that row's base and every base to itself.  Without
that proviso the claim fails: rows are processed in order and later rows
overwrite earlier bindings (see the counterexample). -/
theorem C8_reload_mapping (rows : List SynRow)
    (hdisj : rows.Pairwise (fun r1 r2 => ∀ t ∈ rowTokens r1, t ∉ rowTokens r2))
    (r : SynRow) (hr : r ∈ rows) :
    alookup (rowBase r) (build_synonyms rows) = some (rowBase r)
      ∧ ∀ a ∈ rowAliases r, alookup a (build_synonyms rows) = some (rowBase r) :=
  ⟨build_lookup_gen rows [] hdisj r hr (rowBase r) (by simp [rowTokens]),
    fun a ha => build_lookup_gen rows [] hdisj r hr a (by simp [rowTokens, ha])⟩

/-- C8 witness: one row `base "a", synonyms "x,y"`; base and aliases all
map to "a". -/
theorem C8_reload_mapping_witness :
    alookup "a" (build_synonyms [⟨"a", "x,y"⟩]) = some "a"
      ∧ alookup "x" (build_synonyms [⟨"a", "x,y"⟩]) = some "a" := by
  have h := C8_reload_mapping [⟨"a", "x,y"⟩] (by decide) ⟨"a", "x,y"⟩ (by decide)
  exact ⟨h.1, h.2 "x" (by decide)⟩

/-- C8 counterexample: the claim as stated fails when two rows share an
alias — with rows (base "a", synonyms "x") and (base "b", synonyms "x"),
"x" is an alias of the first row but the built mapping sends it to "b",
the base of the later row, not to "a". -/
theorem C8_reload_mapping_cex :
    "x" ∈ rowAliases ⟨"a", "x"⟩
      ∧ alookup "x" (build_synonyms [⟨"a", "x"⟩, ⟨"b", "x"⟩]) = some "b"
      ∧ alookup "x" (build_synonyms [⟨"a", "x"⟩, ⟨"b", "x"⟩])
          ≠ some (rowBase ⟨"a", "x"⟩) := by decide

/-! ## C6 infrastructure: what characters `_normalize_text` can output. -/

/-- `replaceYo` never outputs `ё`. -/
theorem replaceYo_ne_yo (z : Char) : replaceYo z ≠ 'ё' := by
  unfold replaceYo
  split
  · decide
  · next hne => exact hne

/-- `pyLower` fixes the output of `replaceYo ∘ pyLower`. -/
theorem pyLower_fix_out (a : Char) :
    pyLower (replaceYo (pyLower a)) = replaceYo (pyLower a) := by
  unfold replaceYo
  split
  · decide
  · exact pyLower_idem a

/-- Stripping only removes characters. -/
theorem mem_pyStrip {a : Char} {l : List Char} (h : a ∈ pyStrip l) : a ∈ l := by
  unfold pyStrip at h
  rw [List.mem_reverse] at h
  have h1 := (List.dropWhile_sublist _).subset h
  rw [List.mem_reverse] at h1
  exact (List.dropWhile_sublist _).subset h1

/-- A map whose function fixes every element is the identity. -/
theorem map_fixed {f : Char → Char} : ∀ {l : List Char}, (∀ a ∈ l, f a = a) →
    l.map f = l := by
  intro l h
  induction l with
  | nil => rfl
  | cons a t ih =>
    rw [List.map_cons, h a (by simp), ih fun b hb => h b (by simp [hb])]

/-- The 32 characters of the regex class `[а-я]`. -/
def cyrList : List Char :=
  ['а', 'б', 'в', 'г', 'д', 'е', 'ж', 'з', 'и', 'й', 'к', 'л', 'м', 'н', 'о', 'п',
   'р', 'с', 'т', 'у', 'ф', 'х', 'ц', 'ч', 'ш', 'щ', 'ъ', 'ы', 'ь', 'э', 'ю', 'я']

/-- Membership in `[а-я]` is membership in the explicit list. -/
theorem cyr_mem {c : Char} (h : cyr c = true) : c ∈ cyrList := by
  have hb : c.toNat ∈ Finset.Icc 0x430 0x44F := by
    simp only [cyr, Bool.and_eq_true, decide_eq_true_eq] at h
    exact Finset.mem_Icc.mpr h
  have hall : ∀ n ∈ Finset.Icc (0x430 : Nat) 0x44F, n ∈ cyrList.map Char.toNat := by decide
  rcases List.mem_map.mp (hall _ hb) with ⟨d, hd, hdn⟩
  exact toNat_inj hdn ▸ hd

/-- Transliteration output characters stay lowercase ASCII-like: fixed by
`pyLower`, not `ё`, not in `[а-я]` — provided the input character was
already `pyLower`-fixed and not `ё`. -/
theorem translit_good {c : Char} (hfix : pyLower c = c) (hyo : c ≠ 'ё') {d : Char}
    (hd : d ∈ translitChar c) : pyLower d = d ∧ d ≠ 'ё' ∧ cyr d = false := by
  by_cases hcyr : cyr c = true
  · have hmem := cyr_mem hcyr
    fin_cases hmem <;> simp [translitChar] at hd <;>
      (try rcases hd with rfl | rfl | rfl) <;> decide
  · have hne : ∀ x : Char, cyr x = true → c ≠ x := fun x hx he => hcyr (he ▸ hx)
    have hself : translitChar c = [c] := by
      unfold translitChar
      rw [if_neg (hne 'а' (by decide)), if_neg (hne 'б' (by decide)),
        if_neg (hne 'в' (by decide)), if_neg (hne 'г' (by decide)),
        if_neg (hne 'д' (by decide)), if_neg (hne 'е' (by decide)), if_neg hyo,
        if_neg (hne 'ж' (by decide)), if_neg (hne 'з' (by decide)),
        if_neg (hne 'и' (by decide)), if_neg (hne 'й' (by decide)),
        if_neg (hne 'к' (by decide)), if_neg (hne 'л' (by decide)),
        if_neg (hne 'м' (by decide)), if_neg (hne 'н' (by decide)),
        if_neg (hne 'о' (by decide)), if_neg (hne 'п' (by decide)),
        if_neg (hne 'р' (by decide)), if_neg (hne 'с' (by decide)),
        if_neg (hne 'т' (by decide)), if_neg (hne 'у' (by decide)),
        if_neg (hne 'ф' (by decide)), if_neg (hne 'х' (by decide)),
        if_neg (hne 'ц' (by decide)), if_neg (hne 'ч' (by decide)),
        if_neg (hne 'ш' (by decide)), if_neg (hne 'щ' (by decide)),
        if_neg (hne 'ъ' (by decide)), if_neg (hne 'ы' (by decide)),
        if_neg (hne 'ь' (by decide)), if_neg (hne 'э' (by decide)),
        if_neg (hne 'ю' (by decide)), if_neg (hne 'я' (by decide))]
    rw [hself] at hd
    rcases List.mem_singleton.mp hd with rfl
    exact ⟨hfix, hyo, Bool.not_eq_true _ ▸ hcyr⟩

/-- Every character that `_normalize_text` outputs is `pyLower`-fixed, is
not `ё`, and is outside `[а-я]`. -/
theorem norm_good (x : List Char) : ∀ d ∈ normChars x,
    pyLower d = d ∧ d ≠ 'ё' ∧ cyr d = false := by
  intro d hd
  unfold normChars at hd
  dsimp only at hd
  by_cases hc : hasCyr (((pyStrip x).map pyLower).map replaceYo) = true
  · rw [if_pos hc] at hd
    unfold translit_ru_to_en at hd
    rcases List.mem_flatMap.mp hd with ⟨c, hc1, hc2⟩
    rcases List.mem_map.mp hc1 with ⟨b, hb1, hb2⟩
    rcases List.mem_map.mp hb1 with ⟨a, _, ha2⟩
    subst hb2
    subst ha2
    exact translit_good (pyLower_fix_out a) (replaceYo_ne_yo _) hc2
  · rw [if_neg hc] at hd
    rcases List.mem_map.mp hd with ⟨b, hb1, hb2⟩
    rcases List.mem_map.mp hb1 with ⟨a, ha1, ha2⟩
    subst hb2
    subst ha2
    refine ⟨pyLower_fix_out a, replaceYo_ne_yo _, ?_⟩
    have hcf : hasCyr (((pyStrip x).map pyLower).map replaceYo) = false := by
      revert hc
      cases hasCyr (((pyStrip x).map pyLower).map replaceYo) <;> simp
    unfold hasCyr at hcf
    have := List.any_eq_false.mp hcf (replaceYo (pyLower a))
      (List.mem_map.mpr ⟨pyLower a, List.mem_map.mpr ⟨a, ha1, rfl⟩, rfl⟩)
    simpa using this

/-- C6 counterexample: `normalize` is not idempotent.  For the input
"а ъ" the transliteration erases the trailing `ъ`, leaving "a " with a
trailing space; a second `normalize` strips that space, so the results
differ. -/
theorem C6_normalize_not_idempotent :
    normalize (normalize "а ъ") ≠ normalize "а ъ" := by decide

/-- C6 (amended): a second `normalize` is exactly a `strip` of the first
result — transliterating `ъ`/`ь` at the edges can leave boundary
whitespace that only the second pass's `strip` removes; on strings where
the first result has no such boundary whitespace, `normalize` is
idempotent. -/
theorem C6_normalize_normalize_eq_strip (x : String) :
    normalize (normalize x) = String.mk (pyStrip (normalize x).data) := by
  show String.mk (normChars (normChars x.data)) = String.mk (pyStrip (normChars x.data))
  refine congrArg String.mk ?_
  have hgood := norm_good x.data
  generalize hgen : normChars x.data = t at hgood ⊢
  unfold normChars
  dsimp only
  have h1 : (pyStrip t).map pyLower = pyStrip t :=
    map_fixed fun a ha => (hgood a (mem_pyStrip ha)).1
  rw [h1]
  have h2 : (pyStrip t).map replaceYo = pyStrip t :=
    map_fixed fun a ha => by
      have hne := (hgood a (mem_pyStrip ha)).2.1
      unfold replaceYo
      rw [if_neg hne]
  rw [h2]
  have h3 : hasCyr (pyStrip t) = false := by
    unfold hasCyr
    rw [List.any_eq_false]
    intro a ha
    simp [(hgood a (mem_pyStrip ha)).2.2]
  rw [h3]
  rfl

end OkBot
